import Mathlib

/-!
Verification development for `danaila_natural_convection.py`: a FEniCS script
solving the differentially heated cavity natural-convection benchmark.

Part 1 embeds the weak-form integrands (`f_B`, `a`, `b`, `c`, and the forms
`F`, `A`, `L` from the script) pointwise over ℚ: a UFL form is an integral of a
pointwise expression in the values and gradients of the fields, so two forms
are numerically equivalent exactly when their integrands agree on all pointwise
data.  Part 2 models the script's control flow (Newton loop, time-stepping
driver, output streams, progress reporting) as executable Lean functions.
-/

namespace Danaila

/-! ### Part 1: pointwise values -/

/-- A 2-vector of rationals: the value of a vector field (or a gradient of a
scalar field) at a point. -/
abbrev Vec2 := ℚ × ℚ

/-- A 2×2 matrix as a pair of rows; row `i` is the gradient of component `i`,
so entry `(i, j)` is `∂ⱼ uᵢ`. -/
abbrev Mat2 := Vec2 × Vec2

def dotV (x y : Vec2) : ℚ := x.1 * y.1 + x.2 * y.2

def smulV (cc : ℚ) (x : Vec2) : Vec2 := (cc * x.1, cc * x.2)

def transposeM (m : Mat2) : Mat2 := ((m.1.1, m.2.1), (m.1.2, m.2.2))

/-- Symmetric part `sym(m) = (m + mᵀ)/2` of a matrix (strain rate when
`m` is a velocity gradient). -/
def symM (m : Mat2) : Mat2 :=
  (((m.1.1 + m.1.1) / 2, (m.1.2 + m.2.1) / 2),
   ((m.2.1 + m.1.2) / 2, (m.2.2 + m.2.2) / 2))

/-- Frobenius inner product of two 2×2 matrices. -/
def innerM (m n : Mat2) : ℚ :=
  m.1.1 * n.1.1 + m.1.2 * n.1.2 + m.2.1 * n.2.1 + m.2.2 * n.2.2

/-- Divergence `div u` read off a velocity gradient: the trace `∂₀u₀ + ∂₁u₁`. -/
def traceM (m : Mat2) : ℚ := m.1.1 + m.2.2

/-- Pointwise data of a vector-valued field: its value and its gradient. -/
structure VecPoint where
  val : Vec2
  grad : Mat2
deriving DecidableEq

/-- Pointwise data of a scalar field: its value and its gradient. -/
structure ScalPoint where
  val : ℚ
  grad : Vec2
deriving DecidableEq

/-- Pointwise data of the mixed unknown `w = (u, p, θ)`.  The forms never use
`∇p`, so pressure carries only its value. -/
structure StatePoint where
  u : VecPoint
  p : ℚ
  θ : ScalPoint
deriving DecidableEq

/-- Pointwise data of the previous-step fields read by the forms: the forms
use only the values of `u_n` and `θ_n` (in the time-derivative terms). -/
structure PrevPoint where
  u_n : Vec2
  θ_n : ℚ
deriving DecidableEq

/-- Pointwise data of the test triple `(v, q, φ)`. -/
structure TestPoint where
  v : VecPoint
  q : ℚ
  φ : ScalPoint
deriving DecidableEq

instance : Add VecPoint := ⟨fun x y => ⟨x.val + y.val, x.grad + y.grad⟩⟩

instance : Add ScalPoint := ⟨fun x y => ⟨x.val + y.val, x.grad + y.grad⟩⟩

instance : Add StatePoint := ⟨fun x y => ⟨x.u + y.u, x.p + y.p, x.θ + y.θ⟩⟩

instance : SMul ℚ VecPoint := ⟨fun cc x => ⟨cc • x.val, cc • x.grad⟩⟩

instance : SMul ℚ ScalPoint := ⟨fun cc x => ⟨cc * x.val, cc • x.grad⟩⟩

instance : SMul ℚ StatePoint := ⟨fun cc x => ⟨cc • x.u, cc * x.p, cc • x.θ⟩⟩

/-- The physical and numerical parameters appearing in the variational forms
(the module-level constants of the script, lines 42–85 and 179–193). -/
structure FormParams where
  Ra : ℚ
  Pr : ℚ
  Re : ℚ
  K : ℚ
  mu : ℚ
  g : Vec2
  gamma : ℚ
  dt : ℚ

/-- The script's shipped parameter values: `Ra = 1e6`, `Pr = 0.71`, `Re = 1`,
`K = 1`, `μ = 1`, `g = (0, −1)`, `γ = 1e-7`, `Δt = 1e-5 / 2`. -/
def shippedFormParams : FormParams :=
  { Ra := 1000000, Pr := 71/100, Re := 1, K := 1, mu := 1,
    g := (0, -1), gamma := 1/10000000, dt := 1/200000 }

/-! ### Part 1: the variational-form integrands (script lines 196–245) -/

/-- Buoyancy forcing `f_B(θ) = θ·Ra/(Pr·Re·Re)·g` (script line 197). -/
def f_B (P : FormParams) (_theta : ℚ) : Vec2 :=
  smulV (_theta * P.Ra / (P.Pr * P.Re * P.Re)) P.g

/-- Viscous term `a(μ, u, v) = 2μ·⟨sym(∇u), sym(∇v)⟩` (script line 202). -/
def a (_mu : ℚ) (_u _v : VecPoint) : ℚ :=
  2 * _mu * innerM (symM _u.grad) (symM _v.grad)

/-- Pressure and incompressibility coupling `b(u, q) = −div(u)·q`
(script line 211). -/
def b (_u : VecPoint) (_q : ℚ) : ℚ := -(traceM _u.grad) * _q

/-- Divergence-form convective term `c(w, z, v) = dot(div(w)·z, v)`
(script line 216). -/
def c (_w _z _v : VecPoint) : ℚ := dotV (smulV (traceM _w.grad) _z.val) _v.val

/-- Derivative of the buoyancy forcing, `df_B_dtheta = Ra/(Pr·Re·Re)·g` (script line 223). -/
def df_B_dtheta (P : FormParams) : Vec2 := smulV (P.Ra / (P.Pr * P.Re * P.Re)) P.g

/-- The integrand of the direct nonlinear residual `F` (script lines 240–245):
`b(u,q) − γpq + u·v/Δt + c(u,u,v) + a(μ,u,v) + b(v,p) − u_n·v/Δt − f_B(θ)·v
 + θφ/Δt − (u·∇φ)θ + (K/Pr)∇θ·∇φ − θ_n φ/Δt`. -/
def F_int (P : FormParams) (prev : PrevPoint) (w : StatePoint) (t : TestPoint) : ℚ :=
  b w.u t.q - P.gamma * w.p * t.q
  + dotV w.u.val t.v.val / P.dt + c w.u w.u t.v + a P.mu w.u t.v + b t.v w.p
  - dotV prev.u_n t.v.val / P.dt
  - dotV (f_B P w.θ.val) t.v.val
  + w.θ.val * t.φ.val / P.dt - dotV w.u.val t.φ.grad * w.θ.val
  + dotV (smulV (P.K / P.Pr) w.θ.grad) t.φ.grad - prev.θ_n * t.φ.val / P.dt

/-- The integrand of the hand-written tangent bilinear form `A`
(script lines 225–230), in the unknown direction `ww` at iterate `wk`:
`b(u_w,q) − γp_w q + u_w·v/Δt + c(u_w,u_k,v) + c(u_k,u_w,v) + a(μ,u_w,v)
 + b(v,p_w) − (θ_w·df_B_dθ)·v + θ_w φ/Δt − (u_k·∇φ)θ_w − (u_w·∇φ)θ_k
 + (K/Pr)∇θ_w·∇φ`. -/
def A_int (P : FormParams) (wk ww : StatePoint) (t : TestPoint) : ℚ :=
  b ww.u t.q - P.gamma * ww.p * t.q
  + dotV ww.u.val t.v.val / P.dt + c ww.u wk.u t.v + c wk.u ww.u t.v
  + a P.mu ww.u t.v + b t.v ww.p
  - dotV (smulV ww.θ.val (df_B_dtheta P)) t.v.val
  + ww.θ.val * t.φ.val / P.dt - dotV wk.u.val t.φ.grad * ww.θ.val
  - dotV ww.u.val t.φ.grad * wk.θ.val
  + dotV (smulV (P.K / P.Pr) ww.θ.grad) t.φ.grad

/-- The integrand of the hand-written residual linear form `L`
(script lines 232–236), evaluated at iterate `wk`:
`b(u_k,q) + γp_k q + (u_k−u_n)·v/Δt + c(u_k,u_k,v) + a(μ,u_k,v) + b(v,p_k)
 − f_B(θ_k)·v + (θ_k−θ_n)φ/Δt − (u_k·∇φ)θ_k − (K/Pr)∇θ_k·∇φ`.
Note the signs of the `γ p_k q` and `(K/Pr)∇θ_k·∇φ` terms, which differ from
the corresponding terms of `F`. -/
def L_int (P : FormParams) (prev : PrevPoint) (wk : StatePoint) (t : TestPoint) : ℚ :=
  b wk.u t.q + P.gamma * wk.p * t.q
  + dotV (wk.u.val - prev.u_n) t.v.val / P.dt + c wk.u wk.u t.v
  + a P.mu wk.u t.v + b t.v wk.p - dotV (f_B P wk.θ.val) t.v.val
  + (wk.θ.val - prev.θ_n) * t.φ.val / P.dt - dotV wk.u.val t.φ.grad * wk.θ.val
  - dotV (smulV (P.K / P.Pr) wk.θ.grad) t.φ.grad

/-! Spec-side definitions (for the refinement claims): the four primitive
operators and the combined residual exactly as the spec §4.1 words them. -/

/-- Modelled from the spec §4.1: `a(μ, u, v) = 2μ ⟨sym(∇u), sym(∇v)⟩`. -/
def a_specSide (_mu : ℚ) (_u _v : VecPoint) : ℚ :=
  2 * _mu * innerM (symM _u.grad) (symM _v.grad)

/-- Modelled from the spec §4.1: `b(u, q) = −(∇·u) q`. -/
def b_specSide (_u : VecPoint) (_q : ℚ) : ℚ := -(traceM _u.grad) * _q

/-- Modelled from the spec §4.1: `c(w, z, v) = ((∇·w) z) · v`. -/
def c_specSide (_w _z _v : VecPoint) : ℚ :=
  dotV (smulV (traceM _w.grad) _z.val) _v.val

/-- Modelled from the spec §4.1: `f_B(θ) = θ · Ra/(Pr·Re²) · g`. -/
def f_B_specSide (P : FormParams) (_theta : ℚ) : Vec2 :=
  smulV (_theta * P.Ra / (P.Pr * P.Re ^ 2)) P.g

/-- Modelled from the spec §4.1, the combined residual as the spec writes it:
`F = b(u,q) − γpq + (u−u_n)/Δt·v + c(u,u,v) + a(μ,u,v) + b(v,p) − f_B(θ)·v
   + (θ−θ_n)/Δt·φ − (u·∇φ)θ + (K/Pr)∇θ·∇φ`. -/
def F_specSide (P : FormParams) (prev : PrevPoint) (w : StatePoint) (t : TestPoint) : ℚ :=
  b_specSide w.u t.q - P.gamma * w.p * t.q
  + dotV (smulV (1 / P.dt) (w.u.val - prev.u_n)) t.v.val
  + c_specSide w.u w.u t.v + a_specSide P.mu w.u t.v + b_specSide t.v w.p
  - dotV (f_B_specSide P w.θ.val) t.v.val
  + (w.θ.val - prev.θ_n) / P.dt * t.φ.val
  - dotV w.u.val t.φ.grad * w.θ.val
  + dotV (smulV (P.K / P.Pr) w.θ.grad) t.φ.grad

/-- Modelled from the spec §4.1's aside: the textbook advective convection term
`((w·∇)z)·v` (componentwise `(w·∇)zᵢ = w₀∂₀zᵢ + w₁∂₁zᵢ`), which the spec says
must NOT be substituted for `c`. -/
def advective_specSide (_w _z _v : VecPoint) : ℚ :=
  dotV (dotV _w.val _z.grad.1, dotV _w.val _z.grad.2) _v.val

/-! ### Part 2: the script's control flow

Fields on the unit square are modelled as functions on points; a FEniCS
`Function` on the mixed space `W` is a `MixedField`.  `Function.assign` copies
values, which the model renders as ordinary value passing.  The external
backend calls (`solve(F == 0, ...)`, `solve(A == L, ...)` and
`norm(_, 'H1')`) are oracles passed in as function parameters. -/

/-- A point of the unit-square domain. -/
abbrev Pt := ℚ × ℚ

/-- The contents of a function on the mixed space `W`: velocity, pressure and
temperature fields. -/
structure MixedField where
  vel : Pt → Vec2
  press : Pt → ℚ
  temp : Pt → ℚ

/-- A FEniCS `Function(W)` is zero-initialized. -/
instance : Zero MixedField := ⟨⟨fun _ => (0, 0), fun _ => 0, fun _ => 0⟩⟩

/-- Pointwise subtraction, modelling `w_k - _w_w`. -/
instance : Sub MixedField :=
  ⟨fun f g => ⟨fun x => f.vel x - g.vel x, fun x => f.press x - g.press x,
               fun x => f.temp x - g.temp x⟩⟩

/-- The script's configuration surface: the module-level constants of lines
41–77 that the control flow reads.  `max_newton_iterations` is only set (to
50) in the source when `linearize` is true; it is only read in that branch. -/
structure ScriptParams where
  theta_h : ℚ
  theta_c : ℚ
  final_time : ℚ
  num_time_steps : ℕ
  gamma : ℚ
  linearize : Bool
  max_newton_iterations : ℕ

/-- The shipped configuration: `θ_h = 0.5`, `θ_c = −0.5`,
`final_time = 1e-5`, `num_time_steps = 2`, `γ = 1e-7`, `linearize = False`. -/
def shippedParams : ScriptParams :=
  { theta_h := 1/2, theta_c := -1/2, final_time := 1/100000, num_time_steps := 2,
    gamma := 1/10000000, linearize := false, max_newton_iterations := 50 }

/-- The shipped configuration with `linearize` set to `True` (the flag on
line 73 selects the explicit Newton strategy). -/
def shippedParamsLin : ScriptParams :=
  { shippedParams with linearize := true }

/-- Derived step size `time_step_size = final_time / num_time_steps` (script line 81). -/
def time_step_size (p : ScriptParams) : ℚ := p.final_time / p.num_time_steps

/-- Newton tolerance, `tolerance = 0.1 * gamma` in the script (line 85). -/
def newton_tolerance (p : ScriptParams) : ℚ := (1/10) * p.gamma

/-- The hot wall `near(x[0], 0.)` (script line 142). -/
def hot_wall (x : Pt) : Prop := x.1 = 0

/-- The cold wall `near(x[0], 1.)` (script line 144). -/
def cold_wall (x : Pt) : Prop := x.1 = 1

/-- The adiabatic walls `near(x[1], 0.) | near(x[1], 1.)` (script line 146). -/
def adiabatic_walls (x : Pt) : Prop := x.2 = 0 ∨ x.2 = 1

/-- The boundary-condition value of the linearized strategy (script line 154):
`DirichletBC(W, Constant((0., 0., 0., 0.)), boundary)` — the homogeneous zero
mixed value, imposed on the whole boundary. -/
def linearize_bc_value : Vec2 × ℚ × ℚ := ((0, 0), 0, 0)

/-- The boundary conditions of the direct strategy (script lines 158–162):
`(0,0,0,θ_h)` on the hot wall, `(0,0,0,θ_c)` on the cold wall, zero velocity
(`W.sub(0)`) and zero pressure (`W.sub(1)`) on the adiabatic walls. -/
def satisfiesDirectBC (p : ScriptParams) (w : MixedField) : Prop :=
  (∀ x, hot_wall x → w.vel x = 0 ∧ w.press x = 0 ∧ w.temp x = p.theta_h)
  ∧ (∀ x, cold_wall x → w.vel x = 0 ∧ w.press x = 0 ∧ w.temp x = p.theta_c)
  ∧ (∀ x, adiabatic_walls x → w.vel x = 0 ∧ w.press x = 0)

/-- The temperature initial-value expression (script lines 171–175):
`θ_h + x[0]·(θ_c − θ_h)`, interpolated exactly on the P1 temperature space as
it is an affine expression. -/
def theta_iv (p : ScriptParams) : Pt → ℚ := fun x => p.theta_h + x.1 * (p.theta_c - p.theta_h)

/-- The rebound `u_n = interpolate(Constant((0., 0.)), VxV)` (line 167). -/
def u_iv : Pt → Vec2 := fun _ => (0, 0)

/-- The rebound `p_n = interpolate(Constant(0.), Q)` (line 169); never read by
the forms `A` and `L`. -/
def p_iv : Pt → ℚ := fun _ => 0

/-- What the variational forms read as the previous state: the fields bound to
the names `u_n` and `theta_n` at form-construction time. -/
abbrev PrevRead := (Pt → Vec2) × (Pt → ℚ)

/-- The Newton inner loop (script lines 281–299).  Per iteration `k`: call the
backend linear solve (`solve(A == L, _w_w, bc)`, the oracle `g` applied to the
previous-state read and the current `w_k`), assign `w_k ← w_k − _w_w`, print
`norm(_w_w, 'H1')` (appended to `log`), and break with `converged = True` and
`iteration_count = k + 1` when the norm is below the tolerance.  Returns
`(converged, iteration_count, w_k, printed residual norms)`. -/
def newtonLoop (g : PrevRead → MixedField → MixedField) (nrm : MixedField → ℚ)
    (tol : ℚ) (prev : PrevRead) (maxIter k : ℕ) (wk : MixedField) (log : List ℚ) :
    Bool × ℕ × MixedField × List ℚ :=
  if _h : k < maxIter then
    let dw := g prev wk
    let wk' := wk - dw
    let r := nrm dw
    if r < tol then (true, k + 1, wk', log ++ [r])
    else newtonLoop g nrm tol prev maxIter (k + 1) wk' (log ++ [r])
  else (false, 0, wk, log)
termination_by maxIter - k
decreasing_by omega

/-- The sequence of Newton iterates: `w₀ = wk₀` and `w_{k+1} = w_k − δw_k`
where `δw_k = g prev w_k` is the backend's solution of the tangent system at
iterate `w_k`. -/
def wseq (g : PrevRead → MixedField → MixedField) (prev : PrevRead)
    (w0 : MixedField) : ℕ → MixedField
  | 0 => w0
  | k + 1 => wseq g prev w0 k - g prev (wseq g prev w0 k)

/-- The residual norms of the Newton iteration: `r_k = ‖δw_k‖`. -/
def rseq (g : PrevRead → MixedField → MixedField) (nrm : MixedField → ℚ)
    (prev : PrevRead) (w0 : MixedField) (k : ℕ) : ℚ :=
  nrm (g prev (wseq g prev w0 k))

/-- The record of one completed time step. -/
structure StepOut where
  prev_u : Pt → Vec2
  prev_theta : Pt → ℚ
  time : ℚ
  newton_log : List ℚ
  iteration_count : ℕ
  solve_calls : ℕ
  start_wk : MixedField
  result : MixedField
  w_n_after : MixedField

/-- A default step record (for safe list indexing). -/
def defaultStepOut : StepOut :=
  { prev_u := fun _ => (0, 0), prev_theta := fun _ => 0, time := 0,
    newton_log := [], iteration_count := 0, solve_calls := 0,
    start_wk := 0, result := 0, w_n_after := 0 }

/-- The mutable driver state: the FEniCS `Function`s `w`, `w_n`, `w_k`. -/
structure DriverState where
  w : MixedField
  w_n : MixedField
  w_k : MixedField

/-- The observable outcome of a run: completed step records, the three output
streams of `(field, time)` snapshots, the values passed to
`progress.update`, the number of backend solver calls, whether
`assert(converged)` aborted the run, and the residual norms printed before an
abort. -/
structure RunOut where
  steps : List StepOut
  vel_snaps : List ((Pt → Vec2) × ℚ)
  press_snaps : List ((Pt → ℚ) × ℚ)
  temp_snaps : List ((Pt → ℚ) × ℚ)
  progressReports : List ℚ
  solve_calls : ℕ
  aborted : Bool
  abort_log : List ℚ
  final_w_n : MixedField
  final_w_k : MixedField

/-- One iteration of the time loop body (script lines 269–323), up to the
point where the next iteration begins.  `f` is the backend nonlinear solve
`solve(F == 0, w, bc)` (reading `(u_n, θ_n)` from `split(w_n)` and the initial
guess `w`); `g` is the backend linear solve of `A == L`.  In the linearized
branch the previous-state read is the pair of interpolants bound at lines
167–175, not `split(w_n)`.  Returns the diagnostic log on an
`assert(converged)` failure. -/
def stepOnce (p : ScriptParams) (f : PrevRead → MixedField → MixedField)
    (g : PrevRead → MixedField → MixedField) (nrm : MixedField → ℚ)
    (n : ℕ) (st : DriverState) : Except (List ℚ) (StepOut × DriverState) :=
  let time := (n : ℚ) * time_step_size p
  if p.linearize then
    let prev : PrevRead := (u_iv, theta_iv p)
    match newtonLoop g nrm (newton_tolerance p) prev p.max_newton_iterations 0 st.w_k [] with
    | (converged, iteration_count, wk', log) =>
      if converged then
        let w' := wk'
        Except.ok
          ({ prev_u := prev.1, prev_theta := prev.2, time := time,
             newton_log := log, iteration_count := iteration_count,
             solve_calls := log.length, start_wk := st.w_k, result := w',
             w_n_after := w' },
           { w := w', w_n := w', w_k := wk' })
      else Except.error log
  else
    let prev : PrevRead := (st.w_n.vel, st.w_n.temp)
    let w' := f prev st.w
    Except.ok
      ({ prev_u := prev.1, prev_theta := prev.2, time := time,
         newton_log := [], iteration_count := 0, solve_calls := 1,
         start_wk := st.w_k, result := w', w_n_after := w' },
       { w := w', w_n := w', w_k := st.w_k })

/-- The time-stepping loop from step `n` onward (script lines 269–323).  Each
completed step appends `(velocity, time)`, `(pressure, time)`,
`(temperature, time)` to the three output streams, assigns `w_n ← w`, and
reports `time / final_time`; an `assert(converged)` failure stops the run. -/
def runFrom (p : ScriptParams) (f g : PrevRead → MixedField → MixedField)
    (nrm : MixedField → ℚ) (n : ℕ) (st : DriverState) : RunOut :=
  if _h : n < p.num_time_steps then
    match stepOnce p f g nrm n st with
    | Except.error log =>
        { steps := [], vel_snaps := [], press_snaps := [], temp_snaps := [],
          progressReports := [], solve_calls := log.length, aborted := true,
          abort_log := log, final_w_n := st.w_n, final_w_k := st.w_k }
    | Except.ok (so, st') =>
        let rest := runFrom p f g nrm (n + 1) st'
        { steps := so :: rest.steps,
          vel_snaps := (so.result.vel, so.time) :: rest.vel_snaps,
          press_snaps := (so.result.press, so.time) :: rest.press_snaps,
          temp_snaps := (so.result.temp, so.time) :: rest.temp_snaps,
          progressReports := (so.time / p.final_time) :: rest.progressReports,
          solve_calls := so.solve_calls + rest.solve_calls,
          aborted := rest.aborted, abort_log := rest.abort_log,
          final_w_n := rest.final_w_n, final_w_k := rest.final_w_k }
  else
    { steps := [], vel_snaps := [], press_snaps := [], temp_snaps := [],
      progressReports := [], solve_calls := 0, aborted := false,
      abort_log := [], final_w_n := st.w_n, final_w_k := st.w_k }
termination_by p.num_time_steps - n
decreasing_by omega

/-- The whole script run: `w`, `w_n` and `w_k` are created once as
zero-initialized `Function(W)`s (lines 115–121) and the time loop starts at
`n = 0`.  The script performs no validation of its configuration before
entering the loop. -/
def scriptRun (p : ScriptParams) (f g : PrevRead → MixedField → MixedField)
    (nrm : MixedField → ℚ) : RunOut :=
  runFrom p f g nrm 0 { w := 0, w_n := 0, w_k := 0 }

/-! ### Projection lemmas for the pointwise algebra -/

@[simp] lemma vp_add_val (x y : VecPoint) : (x + y).val = x.val + y.val := rfl

@[simp] lemma vp_add_grad (x y : VecPoint) : (x + y).grad = x.grad + y.grad := rfl

@[simp] lemma vp_smul_val (cc : ℚ) (x : VecPoint) : (cc • x).val = cc • x.val := rfl

@[simp] lemma vp_smul_grad (cc : ℚ) (x : VecPoint) : (cc • x).grad = cc • x.grad := rfl

@[simp] lemma sp_add_val (x y : ScalPoint) : (x + y).val = x.val + y.val := rfl

@[simp] lemma sp_add_grad (x y : ScalPoint) : (x + y).grad = x.grad + y.grad := rfl

@[simp] lemma sp_smul_val (cc : ℚ) (x : ScalPoint) : (cc • x).val = cc * x.val := rfl

@[simp] lemma sp_smul_grad (cc : ℚ) (x : ScalPoint) : (cc • x).grad = cc • x.grad := rfl

@[simp] lemma st_add_u (x y : StatePoint) : (x + y).u = x.u + y.u := rfl

@[simp] lemma st_add_p (x y : StatePoint) : (x + y).p = x.p + y.p := rfl

@[simp] lemma st_add_theta (x y : StatePoint) : (x + y).θ = x.θ + y.θ := rfl

@[simp] lemma st_smul_u (cc : ℚ) (x : StatePoint) : (cc • x).u = cc • x.u := rfl

@[simp] lemma st_smul_p (cc : ℚ) (x : StatePoint) : (cc • x).p = cc * x.p := rfl

@[simp] lemma st_smul_theta (cc : ℚ) (x : StatePoint) : (cc • x).θ = cc • x.θ := rfl

/-- The second-order (quadratic-in-the-direction) part of the expansion of the
residual `F` along a direction: `c(δu, δu, v) − (δu·∇φ)·δθ`. -/
def F_secondOrder (δw : StatePoint) (t : TestPoint) : ℚ :=
  c δw.u δw.u t.v - dotV δw.u.val t.φ.grad * δw.θ.val

/-- Exact Taylor expansion of the direct residual integrand along a direction:
`F` is quadratic in the state, its first-order coefficient is precisely the
hand-written tangent integrand `A_int`. -/
lemma F_int_expand (P : FormParams) (prev : PrevPoint) (wk δw : StatePoint)
    (t : TestPoint) (ε : ℚ) :
    F_int P prev (wk + ε • δw) t
      = F_int P prev wk t + A_int P wk δw t * ε + F_secondOrder δw t * ε ^ 2 := by
  simp only [F_int, A_int, F_secondOrder, a, b, c, f_B, df_B_dtheta, dotV, smulV,
    traceM, innerM, symM, st_add_u, st_add_p, st_add_theta,
    st_smul_u, st_smul_p, st_smul_theta, vp_add_val,
    vp_add_grad, vp_smul_val, vp_smul_grad, sp_add_val,
    sp_add_grad, sp_smul_val, sp_smul_grad, Prod.fst_add,
    Prod.snd_add, Prod.smul_fst, Prod.smul_snd, smul_eq_mul]
  ring

/-- Derivative at `0` of a quadratic polynomial over ℚ. -/
lemma hasDerivAt_quadratic (c0 c1 c2 : ℚ) :
    HasDerivAt (fun ε : ℚ => c0 + c1 * ε + c2 * ε ^ 2) c1 0 := by
  have h1 : HasDerivAt (fun ε : ℚ => ε) 1 0 := hasDerivAt_id 0
  have h2 : HasDerivAt (fun ε : ℚ => ε ^ 2) (2 * 0 ^ 1) 0 := hasDerivAt_pow 2 0
  have h3 := ((hasDerivAt_const (0 : ℚ) c0).add (h1.const_mul c1)).add (h2.const_mul c2)
  simpa using h3

/-- The all-zero pointwise data of a vector field. -/
def zeroVP : VecPoint := ⟨(0, 0), ((0, 0), (0, 0))⟩

/-- The all-zero pointwise data of a scalar field. -/
def zeroSP : ScalPoint := ⟨0, (0, 0)⟩

/-- Previous-state point data with `u_n = 0`, `θ_n = 0`. -/
def zeroPrev : PrevPoint := ⟨(0, 0), 0⟩

/-- State point data with `p_k = 1` and all other components zero. -/
def pOneState : StatePoint := ⟨zeroVP, 1, zeroSP⟩

/-- Test point data with `q = 1` and all other components zero. -/
def qOneTest : TestPoint := ⟨zeroVP, 1, zeroSP⟩

/-- State point data with `∇θ_k = (1, 0)` and all other components zero. -/
def thGradState : StatePoint := ⟨zeroVP, 0, ⟨0, (1, 0)⟩⟩

/-- Test point data with `∇φ = (1, 0)` and all other components zero. -/
def phiGradTest : TestPoint := ⟨zeroVP, 0, ⟨0, (1, 0)⟩⟩

/-- Claim C1: the hand-written tangent form `A` is exactly the directional
derivative of the direct residual `F`: for every parameter set, previous
state, iterate `w_k`, direction `δw` and test triple, the function
`ε ↦ F(w_k + ε·δw)` has derivative `A(δw)` at `ε = 0` (pointwise in the field
data, hence after integration as well).  But the hand-written residual form
`L` is NOT the value of `F` at `w_k`: with the script's parameters, at field
data with `p_k = 1, q = 1` (all else zero) `L = γ` while `F = −γ`, and at
field data with `∇θ_k = (1,0), ∇φ = (1,0)` (all else zero) `L = −K/Pr` while
`F = +K/Pr` — the `γ p q` and `(K/Pr)∇θ·∇φ` terms of `L` carry the opposite
sign from `F`. -/
theorem C1_tangent_matches_residual_does_not :
    (∀ (P : FormParams) (prev : PrevPoint) (wk δw : StatePoint) (t : TestPoint),
      HasDerivAt (fun ε : ℚ => F_int P prev (wk + ε • δw) t) (A_int P wk δw t) 0)
    ∧ L_int shippedFormParams zeroPrev pOneState qOneTest
        ≠ F_int shippedFormParams zeroPrev pOneState qOneTest
    ∧ L_int shippedFormParams zeroPrev thGradState phiGradTest
        ≠ F_int shippedFormParams zeroPrev thGradState phiGradTest := by
  refine ⟨fun P prev wk δw t => ?_, ?_, ?_⟩
  case refine_2 =>
    simp only [L_int, F_int, b, c, a, f_B, dotV, smulV, traceM, innerM, symM,
      shippedFormParams, zeroPrev, pOneState, qOneTest, zeroVP, zeroSP]
    norm_num
  case refine_3 =>
    simp only [L_int, F_int, b, c, a, f_B, dotV, smulV, traceM, innerM, symM,
      shippedFormParams, zeroPrev, thGradState, phiGradTest, zeroVP, zeroSP]
    norm_num
  have hfun : (fun ε : ℚ => F_int P prev (wk + ε • δw) t)
      = fun ε : ℚ => F_int P prev wk t + A_int P wk δw t * ε + F_secondOrder δw t * ε ^ 2 :=
    funext fun ε => F_int_expand P prev wk δw t ε
  rw [hfun]
  exact hasDerivAt_quadratic _ _ _

/-- State point data used to separate the divergence-form and advective
convection terms: `w` has `∂₀w₀ = 1` (so `∇·w = 1`) but zero value. -/
def divOneVP : VecPoint := ⟨(0, 0), ((1, 0), (0, 0))⟩

/-- Vector point data with value `(1, 0)` and zero gradient. -/
def e1VP : VecPoint := ⟨(1, 0), ((0, 0), (0, 0))⟩

/-- Claim C8: the direct residual `F` of the script is built exactly from the
four primitive operators of spec §4.1 and combines them exactly as the spec's
formula states: each primitive of the script coincides with the spec's
(`a`, `b`, `c`, `f_B`), the script's `F` integrand equals the spec's combined
formula on all pointwise data, and the convective operator `c` is genuinely
the divergence form, differing from the textbook advective form
`((w·∇)z)·v` at concrete data. -/
theorem C8_F_built_from_primitives :
    (∀ (_mu : ℚ) (_u _v : VecPoint), a _mu _u _v = a_specSide _mu _u _v)
    ∧ (∀ (_u : VecPoint) (_q : ℚ), b _u _q = b_specSide _u _q)
    ∧ (∀ _w _z _v : VecPoint, c _w _z _v = c_specSide _w _z _v)
    ∧ (∀ (P : FormParams) (_theta : ℚ), f_B P _theta = f_B_specSide P _theta)
    ∧ (∀ (P : FormParams) (prev : PrevPoint) (w : StatePoint) (t : TestPoint),
        F_int P prev w t = F_specSide P prev w t)
    ∧ c divOneVP e1VP e1VP ≠ advective_specSide divOneVP e1VP e1VP := by
  refine ⟨fun _mu _u _v => rfl, fun _u _q => rfl, fun _w _z _v => rfl,
    fun P _theta => ?_, fun P prev w t => ?_, ?_⟩
  · simp only [f_B, f_B_specSide, smulV]
    exact Prod.ext (by ring_nf) (by ring_nf)
  · simp only [F_int, F_specSide, a, b, c, f_B, a_specSide, b_specSide, c_specSide,
      f_B_specSide, dotV, smulV, traceM, innerM, symM, Prod.fst_sub, Prod.snd_sub]
    ring
  · simp only [c, advective_specSide, dotV, smulV, traceM, divOneVP, e1VP]
    norm_num

/-! ### Characterization of the Newton inner loop -/

/-- If the first iteration whose residual norm beats the tolerance is `k0`,
the Newton loop started at any `k ≤ k0` from the `k`-th iterate stops there:
it returns `converged = true`, `iteration_count = k0 + 1`, the iterate
`w_{k0+1}` (the subtraction is applied before the test), and appends the
residual norms `r_k, …, r_{k0}` to the printed log. -/
lemma newtonLoop_first_conv (g : PrevRead → MixedField → MixedField)
    (nrm : MixedField → ℚ) (tol : ℚ) (prev : PrevRead) (maxIter k0 : ℕ)
    (w0 : MixedField) (hk0 : k0 < maxIter)
    (hconv : rseq g nrm prev w0 k0 < tol)
    (hmin : ∀ j < k0, ¬ rseq g nrm prev w0 j < tol) :
    ∀ k, k ≤ k0 → ∀ log : List ℚ,
      newtonLoop g nrm tol prev maxIter k (wseq g prev w0 k) log
        = (true, k0 + 1, wseq g prev w0 (k0 + 1),
           log ++ (List.range' k (k0 + 1 - k)).map (rseq g nrm prev w0)) := by
  have H : ∀ d k, k0 + 1 - k = d → k ≤ k0 → ∀ log : List ℚ,
      newtonLoop g nrm tol prev maxIter k (wseq g prev w0 k) log
        = (true, k0 + 1, wseq g prev w0 (k0 + 1),
           log ++ (List.range' k (k0 + 1 - k)).map (rseq g nrm prev w0)) := by
    intro d
    induction d with
    | zero => intro k hd hk; omega
    | succ d ih =>
      intro k hd hk log
      rw [newtonLoop]
      have hklt : k < maxIter := lt_of_le_of_lt hk hk0
      rw [dif_pos hklt]
      dsimp only
      have hr : nrm (g prev (wseq g prev w0 k)) = rseq g nrm prev w0 k := rfl
      have hw : wseq g prev w0 k - g prev (wseq g prev w0 k) = wseq g prev w0 (k + 1) := rfl
      rw [hr, hw]
      rcases eq_or_lt_of_le hk with hkk | hkk
      · subst hkk
        rw [if_pos hconv]
        have h1 : k + 1 - k = 1 := by omega
        rw [h1]
        rfl
      · rw [if_neg (hmin k hkk)]
        have hrec := ih (k + 1) (by omega) (by omega) (log ++ [rseq g nrm prev w0 k])
        rw [hrec]
        have hn : k0 + 1 - k = (k0 + 1 - (k + 1)) + 1 := by omega
        rw [hn, List.range'_succ, List.map_cons]
        simp [List.append_assoc]
  exact fun k hk log => H (k0 + 1 - k) k rfl hk log

/-- If no iteration's residual norm beats the tolerance, the loop runs all
`maxIter` iterations and returns `converged = false`, `iteration_count = 0`,
the iterate `w_{maxIter}`, and the full list of residual norms. -/
lemma newtonLoop_exhaust (g : PrevRead → MixedField → MixedField)
    (nrm : MixedField → ℚ) (tol : ℚ) (prev : PrevRead) (maxIter : ℕ)
    (w0 : MixedField)
    (hall : ∀ j < maxIter, ¬ rseq g nrm prev w0 j < tol) :
    ∀ k, k ≤ maxIter → ∀ log : List ℚ,
      newtonLoop g nrm tol prev maxIter k (wseq g prev w0 k) log
        = (false, 0, wseq g prev w0 maxIter,
           log ++ (List.range' k (maxIter - k)).map (rseq g nrm prev w0)) := by
  have H : ∀ d k, maxIter - k = d → k ≤ maxIter → ∀ log : List ℚ,
      newtonLoop g nrm tol prev maxIter k (wseq g prev w0 k) log
        = (false, 0, wseq g prev w0 maxIter,
           log ++ (List.range' k (maxIter - k)).map (rseq g nrm prev w0)) := by
    intro d
    induction d with
    | zero =>
      intro k hd hk log
      have hk' : k = maxIter := by omega
      subst hk'
      rw [newtonLoop]
      rw [dif_neg (lt_irrefl k)]
      simp [hd]
    | succ d ih =>
      intro k hd hk log
      rw [newtonLoop]
      have hklt : k < maxIter := by omega
      rw [dif_pos hklt]
      dsimp only
      have hr : nrm (g prev (wseq g prev w0 k)) = rseq g nrm prev w0 k := rfl
      have hw : wseq g prev w0 k - g prev (wseq g prev w0 k) = wseq g prev w0 (k + 1) := rfl
      rw [hr, hw]
      rw [if_neg (hall k hklt)]
      have hrec := ih (k + 1) (by omega) (by omega) (log ++ [rseq g nrm prev w0 k])
      rw [hrec]
      have hn : maxIter - k = (maxIter - (k + 1)) + 1 := by omega
      rw [hn, List.range'_succ, List.map_cons]
      simp [List.append_assoc]
  exact fun k hk log => H (maxIter - k) k rfl hk log

/-- A trivial backend oracle returning the zero field; as a linear-solve
oracle it satisfies the homogeneous boundary conditions of the linearized
strategy (its output vanishes everywhere, in particular on the boundary). -/
def zeroOracle : PrevRead → MixedField → MixedField := fun _ _ => 0

/-- A norm oracle reporting 0 for every field. -/
def zeroNrm : MixedField → ℚ := fun _ => 0

lemma stepOnce_direct (p : ScriptParams) (f g : PrevRead → MixedField → MixedField)
    (nrm : MixedField → ℚ) (n : ℕ) (st : DriverState) (hlin : p.linearize = false) :
    stepOnce p f g nrm n st = Except.ok
      ({ prev_u := st.w_n.vel, prev_theta := st.w_n.temp,
         time := (n : ℚ) * time_step_size p,
         newton_log := [], iteration_count := 0, solve_calls := 1,
         start_wk := st.w_k, result := f (st.w_n.vel, st.w_n.temp) st.w,
         w_n_after := f (st.w_n.vel, st.w_n.temp) st.w },
       { w := f (st.w_n.vel, st.w_n.temp) st.w,
         w_n := f (st.w_n.vel, st.w_n.temp) st.w, w_k := st.w_k }) := by
  unfold stepOnce
  rw [hlin]
  rfl

lemma stepOnce_lin_conv (p : ScriptParams) (f g : PrevRead → MixedField → MixedField)
    (nrm : MixedField → ℚ) (n : ℕ) (st : DriverState) (cnt : ℕ) (wk' : MixedField)
    (log : List ℚ) (hlin : p.linearize = true)
    (hloop : newtonLoop g nrm (newton_tolerance p) (u_iv, theta_iv p)
        p.max_newton_iterations 0 st.w_k [] = (true, cnt, wk', log)) :
    stepOnce p f g nrm n st = Except.ok
      ({ prev_u := u_iv, prev_theta := theta_iv p,
         time := (n : ℚ) * time_step_size p,
         newton_log := log, iteration_count := cnt, solve_calls := log.length,
         start_wk := st.w_k, result := wk', w_n_after := wk' },
       { w := wk', w_n := wk', w_k := wk' }) := by
  unfold stepOnce
  rw [hlin]
  simp only [if_true]
  rw [hloop]
  rfl

lemma stepOnce_lin_noconv (p : ScriptParams) (f g : PrevRead → MixedField → MixedField)
    (nrm : MixedField → ℚ) (n : ℕ) (st : DriverState) (cnt : ℕ) (wk' : MixedField)
    (log : List ℚ) (hlin : p.linearize = true)
    (hloop : newtonLoop g nrm (newton_tolerance p) (u_iv, theta_iv p)
        p.max_newton_iterations 0 st.w_k [] = (false, cnt, wk', log)) :
    stepOnce p f g nrm n st = Except.error log := by
  unfold stepOnce
  rw [hlin]
  simp only [if_true]
  rw [hloop]
  rfl

lemma runFrom_cons (p : ScriptParams) (f g : PrevRead → MixedField → MixedField)
    (nrm : MixedField → ℚ) (n : ℕ) (st : DriverState) (so : StepOut)
    (st' : DriverState) (h : n < p.num_time_steps)
    (hs : stepOnce p f g nrm n st = Except.ok (so, st')) :
    runFrom p f g nrm n st =
      { steps := so :: (runFrom p f g nrm (n + 1) st').steps,
        vel_snaps := (so.result.vel, so.time) :: (runFrom p f g nrm (n + 1) st').vel_snaps,
        press_snaps := (so.result.press, so.time) :: (runFrom p f g nrm (n + 1) st').press_snaps,
        temp_snaps := (so.result.temp, so.time) :: (runFrom p f g nrm (n + 1) st').temp_snaps,
        progressReports := (so.time / p.final_time) :: (runFrom p f g nrm (n + 1) st').progressReports,
        solve_calls := so.solve_calls + (runFrom p f g nrm (n + 1) st').solve_calls,
        aborted := (runFrom p f g nrm (n + 1) st').aborted,
        abort_log := (runFrom p f g nrm (n + 1) st').abort_log,
        final_w_n := (runFrom p f g nrm (n + 1) st').final_w_n,
        final_w_k := (runFrom p f g nrm (n + 1) st').final_w_k } := by
  rw [runFrom, dif_pos h, hs]

lemma runFrom_abort (p : ScriptParams) (f g : PrevRead → MixedField → MixedField)
    (nrm : MixedField → ℚ) (n : ℕ) (st : DriverState) (log : List ℚ)
    (h : n < p.num_time_steps)
    (hs : stepOnce p f g nrm n st = Except.error log) :
    runFrom p f g nrm n st =
      { steps := [], vel_snaps := [], press_snaps := [], temp_snaps := [],
        progressReports := [], solve_calls := log.length, aborted := true,
        abort_log := log, final_w_n := st.w_n, final_w_k := st.w_k } := by
  rw [runFrom, dif_pos h, hs]

lemma runFrom_stop (p : ScriptParams) (f g : PrevRead → MixedField → MixedField)
    (nrm : MixedField → ℚ) (n : ℕ) (st : DriverState)
    (h : ¬ n < p.num_time_steps) :
    runFrom p f g nrm n st =
      { steps := [], vel_snaps := [], press_snaps := [], temp_snaps := [],
        progressReports := [], solve_calls := 0, aborted := false,
        abort_log := [], final_w_n := st.w_n, final_w_k := st.w_k } := by
  rw [runFrom, dif_neg h]


lemma stepOnce_ok_inv (p : ScriptParams) (f g : PrevRead → MixedField → MixedField)
    (nrm : MixedField → ℚ) (n : ℕ) (st : DriverState) (so : StepOut) (st' : DriverState)
    (hs : stepOnce p f g nrm n st = Except.ok (so, st')) :
    so.w_n_after = so.result ∧ st'.w_n = so.result
    ∧ so.time = (n : ℚ) * time_step_size p ∧ so.start_wk = st.w_k
    ∧ (p.linearize = true → so.prev_u = u_iv ∧ so.prev_theta = theta_iv p
        ∧ st'.w_k = so.result)
    ∧ (p.linearize = false → so.prev_u = st.w_n.vel ∧ so.prev_theta = st.w_n.temp
        ∧ so.result = f (st.w_n.vel, st.w_n.temp) st.w ∧ so.solve_calls = 1
        ∧ st'.w_k = st.w_k) := by
  cases hl : p.linearize with
  | true =>
    rcases hloop : newtonLoop g nrm (newton_tolerance p) (u_iv, theta_iv p)
        p.max_newton_iterations 0 st.w_k [] with ⟨conv, cnt, wk', log⟩
    cases conv with
    | false =>
      rw [stepOnce_lin_noconv p f g nrm n st cnt wk' log hl hloop] at hs
      exact absurd hs (by simp)
    | true =>
      rw [stepOnce_lin_conv p f g nrm n st cnt wk' log hl hloop] at hs
      simp only [Except.ok.injEq, Prod.mk.injEq] at hs
      obtain ⟨hso, hst'⟩ := hs
      subst hso
      subst hst'
      simp [hl]
  | false =>
    rw [stepOnce_direct p f g nrm n st hl] at hs
    simp only [Except.ok.injEq, Prod.mk.injEq] at hs
    obtain ⟨hso, hst'⟩ := hs
    subst hso
    subst hst'
    simp [hl]

lemma runFrom_induction (p : ScriptParams) (f g : PrevRead → MixedField → MixedField)
    (nrm : MixedField → ℚ) (motive : ℕ → DriverState → RunOut → Prop)
    (base : ∀ n st, ¬ n < p.num_time_steps →
      motive n st
        { steps := [], vel_snaps := [], press_snaps := [], temp_snaps := [],
          progressReports := [], solve_calls := 0, aborted := false,
          abort_log := [], final_w_n := st.w_n, final_w_k := st.w_k })
    (habort : ∀ n st log, n < p.num_time_steps →
      stepOnce p f g nrm n st = Except.error log →
      motive n st
        { steps := [], vel_snaps := [], press_snaps := [], temp_snaps := [],
          progressReports := [], solve_calls := log.length, aborted := true,
          abort_log := log, final_w_n := st.w_n, final_w_k := st.w_k })
    (hcons : ∀ n st so st', n < p.num_time_steps →
      stepOnce p f g nrm n st = Except.ok (so, st') →
      motive (n + 1) st' (runFrom p f g nrm (n + 1) st') →
      motive n st
        { steps := so :: (runFrom p f g nrm (n + 1) st').steps,
          vel_snaps := (so.result.vel, so.time) :: (runFrom p f g nrm (n + 1) st').vel_snaps,
          press_snaps := (so.result.press, so.time) :: (runFrom p f g nrm (n + 1) st').press_snaps,
          temp_snaps := (so.result.temp, so.time) :: (runFrom p f g nrm (n + 1) st').temp_snaps,
          progressReports := (so.time / p.final_time) :: (runFrom p f g nrm (n + 1) st').progressReports,
          solve_calls := so.solve_calls + (runFrom p f g nrm (n + 1) st').solve_calls,
          aborted := (runFrom p f g nrm (n + 1) st').aborted,
          abort_log := (runFrom p f g nrm (n + 1) st').abort_log,
          final_w_n := (runFrom p f g nrm (n + 1) st').final_w_n,
          final_w_k := (runFrom p f g nrm (n + 1) st').final_w_k }) :
    ∀ n st, motive n st (runFrom p f g nrm n st) := by
  intro n st
  have H : ∀ d n st, p.num_time_steps - n = d → motive n st (runFrom p f g nrm n st) := by
    intro d
    induction d with
    | zero =>
      intro n st hd
      have hn : ¬ n < p.num_time_steps := by omega
      rw [runFrom_stop p f g nrm n st hn]
      exact base n st hn
    | succ d ih =>
      intro n st hd
      have hn : n < p.num_time_steps := by omega
      cases hstep : stepOnce p f g nrm n st with
      | error log =>
        rw [runFrom_abort p f g nrm n st log hn hstep]
        exact habort n st log hn hstep
      | ok pr =>
        obtain ⟨so, st'⟩ := pr
        rw [runFrom_cons p f g nrm n st so st' hn hstep]
        exact hcons n st so st' hn hstep (ih (n + 1) st' (by omega))
  exact H (p.num_time_steps - n) n st rfl


lemma runFrom_streams (p : ScriptParams) (f g : PrevRead → MixedField → MixedField)
    (nrm : MixedField → ℚ) (n : ℕ) (st : DriverState) :
    (runFrom p f g nrm n st).vel_snaps
        = (runFrom p f g nrm n st).steps.map (fun so => (so.result.vel, so.time))
    ∧ (runFrom p f g nrm n st).press_snaps
        = (runFrom p f g nrm n st).steps.map (fun so => (so.result.press, so.time))
    ∧ (runFrom p f g nrm n st).temp_snaps
        = (runFrom p f g nrm n st).steps.map (fun so => (so.result.temp, so.time))
    ∧ (runFrom p f g nrm n st).progressReports
        = (runFrom p f g nrm n st).steps.map (fun so => so.time / p.final_time) := by
  refine runFrom_induction p f g nrm
    (fun _ _ R => R.vel_snaps = R.steps.map (fun so => (so.result.vel, so.time))
      ∧ R.press_snaps = R.steps.map (fun so => (so.result.press, so.time))
      ∧ R.temp_snaps = R.steps.map (fun so => (so.result.temp, so.time))
      ∧ R.progressReports = R.steps.map (fun so => so.time / p.final_time))
    (fun n st hn => by simp) (fun n st log hn hs => by simp)
    (fun n st so st' hn hs ih => ?_) n st
  obtain ⟨h1, h2, h3, h4⟩ := ih
  simp [h1, h2, h3, h4]

lemma runFrom_length_of_not_aborted (p : ScriptParams)
    (f g : PrevRead → MixedField → MixedField) (nrm : MixedField → ℚ)
    (n : ℕ) (st : DriverState) :
    (runFrom p f g nrm n st).aborted = false →
    (runFrom p f g nrm n st).steps.length = p.num_time_steps - n := by
  refine runFrom_induction p f g nrm
    (fun n _ R => R.aborted = false → R.steps.length = p.num_time_steps - n)
    (fun n st hn => by intro _; simp; omega)
    (fun n st log hn hs => by intro h; exact absurd h (by simp))
    (fun n st so st' hn hs ih => ?_) n st
  intro h
  simp only at h
  have := ih h
  simp only [List.length_cons, this]
  omega

lemma runFrom_direct_not_aborted (p : ScriptParams)
    (f g : PrevRead → MixedField → MixedField) (nrm : MixedField → ℚ)
    (hlin : p.linearize = false) (n : ℕ) (st : DriverState) :
    (runFrom p f g nrm n st).aborted = false := by
  refine runFrom_induction p f g nrm (fun _ _ R => R.aborted = false)
    (fun n st hn => rfl)
    (fun n st log hn hs => ?_)
    (fun n st so st' hn hs ih => ih) n st
  rw [stepOnce_direct p f g nrm n st hlin] at hs
  exact absurd hs (by simp)

lemma runFrom_times (p : ScriptParams) (f g : PrevRead → MixedField → MixedField)
    (nrm : MixedField → ℚ) (n : ℕ) (st : DriverState) :
    ∀ i, i < (runFrom p f g nrm n st).steps.length →
      ((runFrom p f g nrm n st).steps.getD i defaultStepOut).time
        = ((n + i : ℕ) : ℚ) * time_step_size p := by
  refine runFrom_induction p f g nrm
    (fun n _ R => ∀ i, i < R.steps.length →
      (R.steps.getD i defaultStepOut).time = ((n + i : ℕ) : ℚ) * time_step_size p)
    (fun n st hn => by simp) (fun n st log hn hs => by simp)
    (fun n st so st' hn hs ih => ?_) n st
  intro i hi
  cases i with
  | zero =>
    simp only [List.getD_cons_zero, Nat.add_zero]
    exact (stepOnce_ok_inv p f g nrm n st so st' hs).2.2.1
  | succ i =>
    simp only [List.getD_cons_succ]
    simp only [List.length_cons] at hi
    have hrec := ih i (by omega)
    rw [hrec]
    have hnat : n + 1 + i = n + (i + 1) := by omega
    rw [hnat]

lemma runFrom_w_n_after (p : ScriptParams) (f g : PrevRead → MixedField → MixedField)
    (nrm : MixedField → ℚ) (n : ℕ) (st : DriverState) :
    ∀ so ∈ (runFrom p f g nrm n st).steps, so.w_n_after = so.result := by
  refine runFrom_induction p f g nrm
    (fun _ _ R => ∀ so ∈ R.steps, so.w_n_after = so.result)
    (fun n st hn => by simp) (fun n st log hn hs => by simp)
    (fun n st so st' hn hs ih => ?_) n st
  intro so' hmem
  rcases List.mem_cons.mp hmem with h | h
  · subst h
    exact (stepOnce_ok_inv p f g nrm n st so' st' hs).1
  · exact ih so' h

lemma runFrom_direct_head_prev (p : ScriptParams)
    (f g : PrevRead → MixedField → MixedField) (nrm : MixedField → ℚ)
    (hlin : p.linearize = false) (n : ℕ) (st : DriverState) :
    ∀ so ∈ (runFrom p f g nrm n st).steps.head?,
      so.prev_u = st.w_n.vel ∧ so.prev_theta = st.w_n.temp := by
  refine runFrom_induction p f g nrm
    (fun _ st R => ∀ so ∈ R.steps.head?,
      so.prev_u = st.w_n.vel ∧ so.prev_theta = st.w_n.temp)
    (fun n st hn => by simp) (fun n st log hn hs => by simp)
    (fun n st so st' hn hs ih => ?_) n st
  intro so2 hmem
  simp only [List.head?_cons, Option.mem_def, Option.some.injEq] at hmem
  subst hmem
  have hinv := (stepOnce_ok_inv p f g nrm n st so st' hs).2.2.2.2.2 hlin
  exact ⟨hinv.1, hinv.2.1⟩

lemma runFrom_direct_chain (p : ScriptParams)
    (f g : PrevRead → MixedField → MixedField) (nrm : MixedField → ℚ)
    (hlin : p.linearize = false) (n : ℕ) (st : DriverState) :
    List.Chain' (fun s1 s2 => s2.prev_u = s1.result.vel ∧ s2.prev_theta = s1.result.temp)
      (runFrom p f g nrm n st).steps := by
  refine runFrom_induction p f g nrm
    (fun _ _ R => List.Chain'
      (fun s1 s2 => s2.prev_u = s1.result.vel ∧ s2.prev_theta = s1.result.temp) R.steps)
    (fun n st hn => by simp) (fun n st log hn hs => by simp)
    (fun n st so st' hn hs ih => ?_) n st
  dsimp only
  rw [List.chain'_cons']
  refine ⟨?_, ih⟩
  intro b hb
  have hhead := runFrom_direct_head_prev p f g nrm hlin (n + 1) st' b hb
  have hinv := stepOnce_ok_inv p f g nrm n st so st' hs
  rw [hinv.2.1] at hhead
  exact hhead

lemma runFrom_lin_prev (p : ScriptParams) (f g : PrevRead → MixedField → MixedField)
    (nrm : MixedField → ℚ) (hlin : p.linearize = true) (n : ℕ) (st : DriverState) :
    ∀ so ∈ (runFrom p f g nrm n st).steps,
      so.prev_u = u_iv ∧ so.prev_theta = theta_iv p := by
  refine runFrom_induction p f g nrm
    (fun _ _ R => ∀ so ∈ R.steps, so.prev_u = u_iv ∧ so.prev_theta = theta_iv p)
    (fun n st hn => by simp) (fun n st log hn hs => by simp)
    (fun n st so st' hn hs ih => ?_) n st
  intro so' hmem
  rcases List.mem_cons.mp hmem with h | h
  · subst h
    have hinv := (stepOnce_ok_inv p f g nrm n st so' st' hs).2.2.2.2.1 hlin
    exact ⟨hinv.1, hinv.2.1⟩
  · exact ih so' h

lemma runFrom_head_start (p : ScriptParams) (f g : PrevRead → MixedField → MixedField)
    (nrm : MixedField → ℚ) (n : ℕ) (st : DriverState) :
    ∀ so ∈ (runFrom p f g nrm n st).steps.head?, so.start_wk = st.w_k := by
  refine runFrom_induction p f g nrm
    (fun _ st R => ∀ so ∈ R.steps.head?, so.start_wk = st.w_k)
    (fun n st hn => by simp) (fun n st log hn hs => by simp)
    (fun n st so st' hn hs ih => ?_) n st
  intro so2 hmem
  simp only [List.head?_cons, Option.mem_def, Option.some.injEq] at hmem
  subst hmem
  exact (stepOnce_ok_inv p f g nrm n st so st' hs).2.2.2.1

lemma runFrom_lin_chain_start (p : ScriptParams)
    (f g : PrevRead → MixedField → MixedField) (nrm : MixedField → ℚ)
    (hlin : p.linearize = true) (n : ℕ) (st : DriverState) :
    List.Chain' (fun s1 s2 => s2.start_wk = s1.result) (runFrom p f g nrm n st).steps := by
  refine runFrom_induction p f g nrm
    (fun _ _ R => List.Chain' (fun s1 s2 => s2.start_wk = s1.result) R.steps)
    (fun n st hn => by simp) (fun n st log hn hs => by simp)
    (fun n st so st' hn hs ih => ?_) n st
  dsimp only
  rw [List.chain'_cons']
  refine ⟨?_, ih⟩
  intro b hb
  have hhead := runFrom_head_start p f g nrm (n + 1) st' b hb
  have hinv := (stepOnce_ok_inv p f g nrm n st so st' hs).2.2.2.2.1 hlin
  rw [hinv.2.2] at hhead
  exact hhead

lemma runFrom_direct_bc (p : ScriptParams) (f g : PrevRead → MixedField → MixedField)
    (nrm : MixedField → ℚ) (hlin : p.linearize = false)
    (hf : ∀ prev w0, satisfiesDirectBC p (f prev w0)) (n : ℕ) (st : DriverState) :
    ∀ so ∈ (runFrom p f g nrm n st).steps, satisfiesDirectBC p so.result := by
  refine runFrom_induction p f g nrm
    (fun _ _ R => ∀ so ∈ R.steps, satisfiesDirectBC p so.result)
    (fun n st hn => by simp) (fun n st log hn hs => by simp)
    (fun n st so st' hn hs ih => ?_) n st
  intro so' hmem
  rcases List.mem_cons.mp hmem with h | h
  · subst h
    have hinv := (stepOnce_ok_inv p f g nrm n st so' st' hs).2.2.2.2.2 hlin
    rw [hinv.2.2.1]
    exact hf _ _
  · exact ih so' h

lemma runFrom_direct_solve_calls (p : ScriptParams)
    (f g : PrevRead → MixedField → MixedField) (nrm : MixedField → ℚ)
    (hlin : p.linearize = false) (n : ℕ) (st : DriverState) :
    (runFrom p f g nrm n st).solve_calls = p.num_time_steps - n := by
  refine runFrom_induction p f g nrm
    (fun n _ R => R.solve_calls = p.num_time_steps - n)
    (fun n st hn => by simp; omega)
    (fun n st log hn hs => ?_)
    (fun n st so st' hn hs ih => ?_) n st
  · rw [stepOnce_direct p f g nrm n st hlin] at hs
    exact absurd hs (by simp)
  · have hinv := (stepOnce_ok_inv p f g nrm n st so st' hs).2.2.2.2.2 hlin
    simp only [hinv.2.2.2.1, ih]
    omega


/-- A norm oracle reporting 1 for every field (never below any tolerance
below 1). -/
def oneNrm : MixedField → ℚ := fun _ => 1

/-- A field satisfying the direct strategy's Dirichlet boundary conditions:
zero velocity and pressure, temperature equal to the linear wall-to-wall
profile. -/
def bcField : MixedField :=
  { vel := fun _ => (0, 0), press := fun _ => 0, temp := theta_iv shippedParams }

/-- A direct-solve oracle whose output always satisfies the imposed boundary
conditions. -/
def bcOracle : PrevRead → MixedField → MixedField := fun _ _ => bcField

lemma newtonLoop_zeroOracle (tol : ℚ) (htol : 0 < tol) (maxIter : ℕ) (hm : 0 < maxIter)
    (prev : PrevRead) (wk : MixedField) :
    newtonLoop zeroOracle zeroNrm tol prev maxIter 0 wk [] = (true, 1, wk - 0, [0]) := by
  rw [newtonLoop, dif_pos hm]
  dsimp only [zeroOracle, zeroNrm]
  rw [if_pos htol]
  rfl

lemma stepOnce_linZero (f : PrevRead → MixedField → MixedField) (n : ℕ) (st : DriverState) :
    stepOnce shippedParamsLin f zeroOracle zeroNrm n st = Except.ok
      ({ prev_u := u_iv, prev_theta := theta_iv shippedParamsLin,
         time := (n : ℚ) * time_step_size shippedParamsLin,
         newton_log := [0], iteration_count := 1, solve_calls := 1,
         start_wk := st.w_k, result := st.w_k - 0, w_n_after := st.w_k - 0 },
       { w := st.w_k - 0, w_n := st.w_k - 0, w_k := st.w_k - 0 }) := by
  have hloop := newtonLoop_zeroOracle (newton_tolerance shippedParamsLin)
    (by norm_num [newton_tolerance, shippedParamsLin, shippedParams])
    shippedParamsLin.max_newton_iterations (by decide) (u_iv, theta_iv shippedParamsLin) st.w_k
  exact stepOnce_lin_conv shippedParamsLin f zeroOracle zeroNrm n st 1 (st.w_k - 0) [0] rfl hloop

lemma linZero_run_steps (f : PrevRead → MixedField → MixedField) :
    (scriptRun shippedParamsLin f zeroOracle zeroNrm).steps
      = [{ prev_u := u_iv, prev_theta := theta_iv shippedParamsLin,
           time := ((0 : ℕ) : ℚ) * time_step_size shippedParamsLin,
           newton_log := [0], iteration_count := 1, solve_calls := 1,
           start_wk := (0 : MixedField), result := (0 : MixedField) - 0,
           w_n_after := (0 : MixedField) - 0 },
         { prev_u := u_iv, prev_theta := theta_iv shippedParamsLin,
           time := ((1 : ℕ) : ℚ) * time_step_size shippedParamsLin,
           newton_log := [0], iteration_count := 1, solve_calls := 1,
           start_wk := (0 : MixedField) - 0, result := (0 : MixedField) - 0 - 0,
           w_n_after := (0 : MixedField) - 0 - 0 }] := by
  rw [scriptRun]
  rw [runFrom_cons shippedParamsLin f zeroOracle zeroNrm 0 ⟨0, 0, 0⟩ _ _ (by decide)
    (stepOnce_linZero f 0 ⟨0, 0, 0⟩)]
  rw [runFrom_cons shippedParamsLin f zeroOracle zeroNrm 1 _ _ _ (by decide)
    (stepOnce_linZero f 1 _)]
  rw [runFrom_stop shippedParamsLin f zeroOracle zeroNrm 2 _ (by decide)]


/-! ### Small helpers for list indexing and field projections -/

@[simp] lemma MixedField.zero_vel (x : Pt) : (0 : MixedField).vel x = (0, 0) := rfl

@[simp] lemma MixedField.zero_press (x : Pt) : (0 : MixedField).press x = 0 := rfl

@[simp] lemma MixedField.zero_temp (x : Pt) : (0 : MixedField).temp x = 0 := rfl

@[simp] lemma MixedField.sub_vel (w1 w2 : MixedField) (x : Pt) :
    (w1 - w2).vel x = w1.vel x - w2.vel x := rfl

@[simp] lemma MixedField.sub_press (w1 w2 : MixedField) (x : Pt) :
    (w1 - w2).press x = w1.press x - w2.press x := rfl

@[simp] lemma MixedField.sub_temp (w1 w2 : MixedField) (x : Pt) :
    (w1 - w2).temp x = w1.temp x - w2.temp x := rfl

lemma getD_map_of_lt {α β : Type} (l : List α) (fm : α → β) (i : ℕ)
    (h : i < l.length) (d : β) (d0 : α) :
    (l.map fm).getD i d = fm (l.getD i d0) := by
  rw [List.getD_eq_getElem _ _ (by simpa using h), List.getD_eq_getElem _ _ h,
    List.getElem_map]

lemma getLast?_map_range (m : ℕ) (hm : m ≠ 0) (fn : ℕ → ℚ) :
    ((List.range m).map fn).getLast? = some (fn (m - 1)) := by
  rw [List.getLast?_map, List.getLast?_range]
  simp [hm]

/-! ### Claim theorems -/

/-- Claim C3: in the explicit Newton strategy, each inner iteration solves the
tangent system (the backend oracle `g`), updates the iterate by subtraction
(`wseq`), and measures `r = ‖δw‖`; the loop converges exactly at the first
`k0` whose residual norm is below the tolerance, with tolerance `0.1·γ`,
recording `iteration_count = k0 + 1`, and the step then sets `w` (and `w_n`,
`w_k`) to the final iterate `w_{k0+1}`.  The boundary condition used for the
tangent solves is the homogeneous zero value on the whole boundary. -/
theorem C3_explicit_newton_step (p : ScriptParams)
    (f g : PrevRead → MixedField → MixedField) (nrm : MixedField → ℚ)
    (n : ℕ) (st : DriverState) (k0 : ℕ)
    (hlin : p.linearize = true)
    (hk0 : k0 < p.max_newton_iterations)
    (hconv : rseq g nrm (u_iv, theta_iv p) st.w_k k0 < newton_tolerance p)
    (hmin : ∀ j < k0, ¬ rseq g nrm (u_iv, theta_iv p) st.w_k j < newton_tolerance p) :
    newton_tolerance p = (1/10) * p.gamma
    ∧ linearize_bc_value = ((0, 0), 0, 0)
    ∧ ((List.range (k0 + 1)).map (rseq g nrm (u_iv, theta_iv p) st.w_k)).length = k0 + 1
    ∧ newtonLoop g nrm (newton_tolerance p) (u_iv, theta_iv p)
        p.max_newton_iterations 0 st.w_k []
        = (true, k0 + 1, wseq g (u_iv, theta_iv p) st.w_k (k0 + 1),
           (List.range (k0 + 1)).map (rseq g nrm (u_iv, theta_iv p) st.w_k))
    ∧ stepOnce p f g nrm n st = Except.ok
        ({ prev_u := u_iv, prev_theta := theta_iv p,
           time := (n : ℚ) * time_step_size p,
           newton_log := (List.range (k0 + 1)).map (rseq g nrm (u_iv, theta_iv p) st.w_k),
           iteration_count := k0 + 1,
           solve_calls := ((List.range (k0 + 1)).map (rseq g nrm (u_iv, theta_iv p) st.w_k)).length,
           start_wk := st.w_k, result := wseq g (u_iv, theta_iv p) st.w_k (k0 + 1),
           w_n_after := wseq g (u_iv, theta_iv p) st.w_k (k0 + 1) },
         { w := wseq g (u_iv, theta_iv p) st.w_k (k0 + 1),
           w_n := wseq g (u_iv, theta_iv p) st.w_k (k0 + 1),
           w_k := wseq g (u_iv, theta_iv p) st.w_k (k0 + 1) }) := by
  have hloop := newtonLoop_first_conv g nrm (newton_tolerance p) (u_iv, theta_iv p)
    p.max_newton_iterations k0 st.w_k hk0 hconv hmin 0 (Nat.zero_le _) []
  rw [show wseq g (u_iv, theta_iv p) st.w_k 0 = st.w_k from rfl, List.nil_append,
    Nat.sub_zero, ← List.range_eq_range'] at hloop
  exact ⟨rfl, rfl, by simp, hloop,
    stepOnce_lin_conv p f g nrm n st (k0 + 1) _ _ hlin hloop⟩

/-- Witness for C3: with the zero linear-solve oracle and the zero norm
oracle at the shipped linearized configuration, the very first iteration
converges (`k0 = 0`): the loop reports `converged`, `iteration_count = 1`,
iterate `w₁`, and one printed residual. -/
theorem C3_explicit_newton_step_witness :
    shippedParamsLin.linearize = true
    ∧ 0 < shippedParamsLin.max_newton_iterations
    ∧ rseq zeroOracle zeroNrm (u_iv, theta_iv shippedParamsLin) (0 : MixedField) 0
        < newton_tolerance shippedParamsLin
    ∧ newtonLoop zeroOracle zeroNrm (newton_tolerance shippedParamsLin)
        (u_iv, theta_iv shippedParamsLin) shippedParamsLin.max_newton_iterations 0
        (0 : MixedField) []
        = (true, 0 + 1,
           wseq zeroOracle (u_iv, theta_iv shippedParamsLin) (0 : MixedField) (0 + 1),
           (List.range (0 + 1)).map
             (rseq zeroOracle zeroNrm (u_iv, theta_iv shippedParamsLin) (0 : MixedField))) := by
  have h := C3_explicit_newton_step shippedParamsLin zeroOracle zeroOracle zeroNrm 0
    ⟨0, 0, 0⟩ 0 rfl (by decide)
    (by norm_num [rseq, zeroNrm, newton_tolerance, shippedParamsLin, shippedParams])
    (fun j hj => absurd hj (Nat.not_lt_zero j))
  exact ⟨rfl, by decide,
    by norm_num [rseq, zeroNrm, newton_tolerance, shippedParamsLin, shippedParams],
    h.2.2.2.1⟩

/-- Claim C4: if no iteration of the Newton loop meets the tolerance, the run
aborts hard (the `assert(converged)` fails): no step result is produced, no
snapshot is written and no progress is reported, while the diagnostic output
contains one residual-norm line per iteration performed (so its length is the
iteration count) and its last entry is the final residual norm. -/
theorem C4_newton_exhaustion (p : ScriptParams)
    (f g : PrevRead → MixedField → MixedField) (nrm : MixedField → ℚ)
    (hlin : p.linearize = true)
    (hall : ∀ j < p.max_newton_iterations,
      ¬ rseq g nrm (u_iv, theta_iv p) (0 : MixedField) j < newton_tolerance p)
    (hsteps : 0 < p.num_time_steps) :
    (scriptRun p f g nrm).aborted = true
    ∧ (scriptRun p f g nrm).steps = []
    ∧ (scriptRun p f g nrm).vel_snaps = []
    ∧ (scriptRun p f g nrm).press_snaps = []
    ∧ (scriptRun p f g nrm).temp_snaps = []
    ∧ (scriptRun p f g nrm).progressReports = []
    ∧ (scriptRun p f g nrm).abort_log
        = (List.range p.max_newton_iterations).map
            (rseq g nrm (u_iv, theta_iv p) (0 : MixedField))
    ∧ (scriptRun p f g nrm).abort_log.length = p.max_newton_iterations
    ∧ (0 < p.max_newton_iterations →
        (scriptRun p f g nrm).abort_log.getLast?
          = some (rseq g nrm (u_iv, theta_iv p) (0 : MixedField)
              (p.max_newton_iterations - 1))) := by
  have hloop := newtonLoop_exhaust g nrm (newton_tolerance p) (u_iv, theta_iv p)
    p.max_newton_iterations (0 : MixedField) hall 0 (Nat.zero_le _) []
  rw [show wseq g (u_iv, theta_iv p) (0 : MixedField) 0 = (0 : MixedField) from rfl,
    List.nil_append, Nat.sub_zero, ← List.range_eq_range'] at hloop
  have hstep := stepOnce_lin_noconv p f g nrm 0 ⟨0, 0, 0⟩ 0
    (wseq g (u_iv, theta_iv p) (0 : MixedField) p.max_newton_iterations)
    ((List.range p.max_newton_iterations).map
      (rseq g nrm (u_iv, theta_iv p) (0 : MixedField))) hlin hloop
  have habort := runFrom_abort p f g nrm 0 ⟨0, 0, 0⟩ _ hsteps hstep
  rw [scriptRun, habort]
  refine ⟨rfl, rfl, rfl, rfl, rfl, rfl, rfl, by simp, ?_⟩
  intro hmax
  exact getLast?_map_range _ (Nat.pos_iff_ne_zero.mp hmax) _

/-- Witness for C4: at the shipped linearized configuration, with a norm
oracle that always reports 1 (never below the tolerance `1e-8`), the run
aborts with 50 printed residual norms, the last being 1. -/
theorem C4_newton_exhaustion_witness :
    shippedParamsLin.linearize = true
    ∧ (∀ j < shippedParamsLin.max_newton_iterations,
        ¬ rseq zeroOracle oneNrm (u_iv, theta_iv shippedParamsLin) (0 : MixedField) j
          < newton_tolerance shippedParamsLin)
    ∧ 0 < shippedParamsLin.num_time_steps
    ∧ (scriptRun shippedParamsLin zeroOracle zeroOracle oneNrm).aborted = true
    ∧ (scriptRun shippedParamsLin zeroOracle zeroOracle oneNrm).abort_log.length
        = shippedParamsLin.max_newton_iterations := by
  have hall : ∀ j < shippedParamsLin.max_newton_iterations,
      ¬ rseq zeroOracle oneNrm (u_iv, theta_iv shippedParamsLin) (0 : MixedField) j
        < newton_tolerance shippedParamsLin := by
    intro j hj
    norm_num [rseq, oneNrm, newton_tolerance, shippedParamsLin, shippedParams]
  have h := C4_newton_exhaustion shippedParamsLin zeroOracle zeroOracle oneNrm rfl hall
    (by decide)
  exact ⟨rfl, hall, by decide, h.1, h.2.2.2.2.2.2.2.1⟩

/-- Claim C5 (amended): the script performs no validation of its
configuration: under the direct strategy the solver is called exactly
`num_time_steps` times for every parameter assignment, valid or not, and the
run never fails before a solve; separately, the shipped constants do satisfy
`γ > 0`, `Δt > 0` and `θ_h ≠ θ_c`. -/
theorem C5_no_config_validation :
    (∀ (p : ScriptParams) (f g : PrevRead → MixedField → MixedField)
        (nrm : MixedField → ℚ), p.linearize = false →
      (scriptRun p f g nrm).solve_calls = p.num_time_steps
      ∧ (scriptRun p f g nrm).aborted = false)
    ∧ 0 < shippedParams.gamma
    ∧ 0 < time_step_size shippedParams
    ∧ shippedParams.theta_h ≠ shippedParams.theta_c := by
  refine ⟨fun p f g nrm hlin => ⟨?_, ?_⟩, by norm_num [shippedParams],
    by norm_num [time_step_size, shippedParams], by norm_num [shippedParams]⟩
  · rw [scriptRun, runFrom_direct_solve_calls p f g nrm hlin 0 _]
    omega
  · rw [scriptRun]
    exact runFrom_direct_not_aborted p f g nrm hlin 0 _

/-- Witness for C5's amended theorem at the shipped (direct) configuration. -/
theorem C5_no_config_validation_witness :
    shippedParams.linearize = false
    ∧ (scriptRun shippedParams bcOracle zeroOracle zeroNrm).solve_calls
        = shippedParams.num_time_steps :=
  ⟨rfl, (C5_no_config_validation.1 shippedParams bcOracle zeroOracle zeroNrm rfl).1⟩

/-- Counterexample for C5 as stated: with `γ = −1` (an invalid configuration)
the run does not fail before the first solver call — it calls the solver
twice and completes without any error. -/
theorem C5_counterexample :
    ({ shippedParams with gamma := -1 } : ScriptParams).gamma ≤ 0
    ∧ (scriptRun { shippedParams with gamma := -1 } bcOracle zeroOracle zeroNrm).solve_calls
        = 2
    ∧ (scriptRun { shippedParams with gamma := -1 } bcOracle zeroOracle zeroNrm).aborted
        = false := by
  refine ⟨by norm_num, ?_, ?_⟩
  · rw [scriptRun, runFrom_direct_solve_calls _ _ _ _ rfl 0 _]
    rfl
  · rw [scriptRun]
    exact runFrom_direct_not_aborted _ _ _ _ rfl 0 _

/-- Helper: the constant boundary-condition oracle satisfies the direct
strategy's Dirichlet set at the shipped parameters. -/
lemma bcOracle_satisfiesDirectBC :
    ∀ (prev : PrevRead) (w0 : MixedField),
      satisfiesDirectBC shippedParams (bcOracle prev w0) := by
  intro prev w0
  refine ⟨fun x hx => ⟨rfl, rfl, ?_⟩, fun x hx => ⟨rfl, rfl, ?_⟩,
    fun x hx => ⟨rfl, rfl⟩⟩
  · simp only [bcOracle, bcField, theta_iv, hot_wall] at *
    rw [hx]
    norm_num [shippedParams]
  · simp only [bcOracle, bcField, theta_iv, cold_wall] at *
    rw [hx]
    norm_num [shippedParams]

/-- Claim C2 (amended): after every completed step, under both strategies,
`w_n` is replaced by a copy of the step's result.  Under the direct strategy
the weak form's previous-state read at each later step is exactly the field
produced by the preceding step.  Under the linearized strategy, however, the
forms read the separately interpolated `u_n`, `θ_n` initial-condition
functions at every step, which are never updated. -/
theorem C2_previous_state_update (p : ScriptParams)
    (f g : PrevRead → MixedField → MixedField) (nrm : MixedField → ℚ) :
    (∀ so ∈ (scriptRun p f g nrm).steps, so.w_n_after = so.result)
    ∧ (p.linearize = false →
        List.Chain'
          (fun s1 s2 => s2.prev_u = s1.result.vel ∧ s2.prev_theta = s1.result.temp)
          (scriptRun p f g nrm).steps)
    ∧ (p.linearize = true →
        ∀ so ∈ (scriptRun p f g nrm).steps,
          so.prev_u = u_iv ∧ so.prev_theta = theta_iv p) := by
  refine ⟨?_, fun hlin => ?_, fun hlin => ?_⟩
  · rw [scriptRun]
    exact runFrom_w_n_after p f g nrm 0 _
  · rw [scriptRun]
    exact runFrom_direct_chain p f g nrm hlin 0 _
  · rw [scriptRun]
    exact runFrom_lin_prev p f g nrm hlin 0 _

/-- Witness for C2's amended theorem: the direct-strategy chain property at
the shipped configuration, and the fixed-interpolant property at the
linearized configuration. -/
theorem C2_previous_state_update_witness :
    (shippedParams.linearize = false
      ∧ List.Chain'
          (fun s1 s2 => s2.prev_u = s1.result.vel ∧ s2.prev_theta = s1.result.temp)
          (scriptRun shippedParams bcOracle zeroOracle zeroNrm).steps)
    ∧ (shippedParamsLin.linearize = true
      ∧ ∀ so ∈ (scriptRun shippedParamsLin bcOracle zeroOracle zeroNrm).steps,
          so.prev_u = u_iv ∧ so.prev_theta = theta_iv shippedParamsLin) :=
  ⟨⟨rfl, (C2_previous_state_update shippedParams bcOracle zeroOracle zeroNrm).2.1 rfl⟩,
   ⟨rfl, (C2_previous_state_update shippedParamsLin bcOracle zeroOracle zeroNrm).2.2 rfl⟩⟩

/-- Counterexample for C2 as stated: in a two-step linearized run (every
backend increment zero, so every step converges), the `θ_n` read by the form
at step 1 is the initial linear profile — value `1/2` at the origin — while
the field produced at step 0 has temperature `0` there: the form does not
read the updated previous state. -/
theorem C2_counterexample :
    (scriptRun shippedParamsLin bcOracle zeroOracle zeroNrm).steps.length = 2
    ∧ ((scriptRun shippedParamsLin bcOracle zeroOracle zeroNrm).steps.getD 1
          defaultStepOut).prev_theta ((0 : ℚ), 0)
      ≠ (((scriptRun shippedParamsLin bcOracle zeroOracle zeroNrm).steps.getD 0
          defaultStepOut).result).temp ((0 : ℚ), 0) := by
  rw [linZero_run_steps bcOracle]
  refine ⟨rfl, ?_⟩
  simp only [List.getD_cons_succ, List.getD_cons_zero, MixedField.sub_temp,
    MixedField.zero_temp]
  norm_num [theta_iv, shippedParamsLin, shippedParams]

/-- Claim C6 (amended, direct strategy): provided the backend solve enforces
the imposed Dirichlet set (the collaborator contract), every completed step's
result has temperature `θ_h` on the hot wall and `θ_c` on the cold wall, and
zero velocity — hence zero normal velocity — on all four walls. -/
theorem C6_boundary_conditions_direct (p : ScriptParams)
    (f g : PrevRead → MixedField → MixedField) (nrm : MixedField → ℚ)
    (hlin : p.linearize = false)
    (hf : ∀ prev w0, satisfiesDirectBC p (f prev w0)) :
    ∀ so ∈ (scriptRun p f g nrm).steps,
      (∀ x, hot_wall x → so.result.temp x = p.theta_h)
      ∧ (∀ x, cold_wall x → so.result.temp x = p.theta_c)
      ∧ (∀ x, hot_wall x ∨ cold_wall x ∨ adiabatic_walls x → so.result.vel x = 0) := by
  intro so hmem
  rw [scriptRun] at hmem
  obtain ⟨h1, h2, h3⟩ := runFrom_direct_bc p f g nrm hlin hf 0 ⟨0, 0, 0⟩ so hmem
  refine ⟨fun x hx => (h1 x hx).2.2, fun x hx => (h2 x hx).2.2, fun x hx => ?_⟩
  rcases hx with hx | hx | hx
  · exact (h1 x hx).1
  · exact (h2 x hx).1
  · exact (h3 x hx).1

/-- Witness for C6's amended theorem at the shipped direct configuration with
a boundary-condition-respecting solve oracle. -/
theorem C6_boundary_conditions_direct_witness :
    shippedParams.linearize = false
    ∧ (∀ (prev : PrevRead) (w0 : MixedField),
        satisfiesDirectBC shippedParams (bcOracle prev w0))
    ∧ ∀ so ∈ (scriptRun shippedParams bcOracle zeroOracle zeroNrm).steps,
        (∀ x, hot_wall x → so.result.temp x = shippedParams.theta_h)
        ∧ (∀ x, cold_wall x → so.result.temp x = shippedParams.theta_c)
        ∧ (∀ x, hot_wall x ∨ cold_wall x ∨ adiabatic_walls x → so.result.vel x = 0) :=
  ⟨rfl, bcOracle_satisfiesDirectBC,
   C6_boundary_conditions_direct shippedParams bcOracle zeroOracle zeroNrm rfl
     bcOracle_satisfiesDirectBC⟩

/-- Counterexample for C6 as stated: under the linearized strategy, with a
backend linear-solve oracle whose increments vanish everywhere (in particular
satisfying the imposed homogeneous boundary conditions), both steps converge,
yet the converged result's temperature at the hot-wall point `(0, 1/2)` is
`0`, not `θ_h = 1/2`. -/
theorem C6_counterexample :
    hot_wall ((0 : ℚ), 1/2)
    ∧ shippedParamsLin.theta_h = 1/2
    ∧ (∀ (prev : PrevRead) (wk : MixedField) (x : Pt),
        (zeroOracle prev wk).vel x = 0 ∧ (zeroOracle prev wk).press x = 0
        ∧ (zeroOracle prev wk).temp x = 0)
    ∧ (scriptRun shippedParamsLin bcOracle zeroOracle zeroNrm).steps.length = 2
    ∧ (((scriptRun shippedParamsLin bcOracle zeroOracle zeroNrm).steps.getD 0
          defaultStepOut).result).temp ((0 : ℚ), 1/2) = 0
    ∧ (0 : ℚ) ≠ 1/2 := by
  refine ⟨rfl, rfl, fun prev wk x => ⟨rfl, rfl, rfl⟩, ?_, ?_, by norm_num⟩
  · rw [linZero_run_steps bcOracle]
    rfl
  · rw [linZero_run_steps bcOracle]
    simp

/-- Claim C7 (amended): in the linearized strategy the Newton iterate `w_k`
is created exactly once per run and carried across time steps (each step's
starting iterate is the previous step's converged result; the first step
starts from the zero-initialized `Function(W)`).  Its velocity and pressure
components agree with the initial condition loaded into `u_n`, `p_n` (all
zero), but its temperature component is identically zero, whereas `θ_n` is
loaded with the linear wall-to-wall profile, which equals `1/2 ≠ 0` at the
hot wall. -/
theorem C7_wk_initialization :
    (∀ (p : ScriptParams) (f g : PrevRead → MixedField → MixedField)
        (nrm : MixedField → ℚ), p.linearize = true →
      List.Chain' (fun s1 s2 => s2.start_wk = s1.result) (scriptRun p f g nrm).steps
      ∧ ∀ so ∈ (scriptRun p f g nrm).steps.head?, so.start_wk = (0 : MixedField))
    ∧ (∀ x, (0 : MixedField).vel x = u_iv x)
    ∧ (∀ x, (0 : MixedField).press x = p_iv x)
    ∧ (∀ x, (0 : MixedField).temp x = 0)
    ∧ theta_iv shippedParamsLin ((0 : ℚ), 0) = 1/2 := by
  refine ⟨fun p f g nrm hlin => ⟨?_, ?_⟩, fun x => rfl, fun x => rfl, fun x => rfl,
    by norm_num [theta_iv, shippedParamsLin, shippedParams]⟩
  · rw [scriptRun]
    exact runFrom_lin_chain_start p f g nrm hlin 0 _
  · rw [scriptRun]
    exact runFrom_head_start p f g nrm 0 ⟨0, 0, 0⟩

/-- Witness for C7's amended theorem at the shipped linearized configuration. -/
theorem C7_wk_initialization_witness :
    shippedParamsLin.linearize = true
    ∧ List.Chain' (fun s1 s2 => s2.start_wk = s1.result)
        (scriptRun shippedParamsLin bcOracle zeroOracle zeroNrm).steps :=
  ⟨rfl, (C7_wk_initialization.1 shippedParamsLin bcOracle zeroOracle zeroNrm rfl).1⟩

/-- Counterexample for C7 as stated: in a concrete linearized run, step 0's
starting Newton iterate has temperature `0` at the hot-wall corner, while the
initial condition loaded into `θ_n` (read by the very same step's form) is
`1/2` there: `w_k` does not start from the initial condition of `(u_n, p_n,
θ_n)`. -/
theorem C7_counterexample :
    ((((scriptRun shippedParamsLin bcOracle zeroOracle zeroNrm).steps.getD 0
          defaultStepOut).start_wk).temp ((0 : ℚ), 0))
      ≠ (((scriptRun shippedParamsLin bcOracle zeroOracle zeroNrm).steps.getD 0
          defaultStepOut).prev_theta ((0 : ℚ), 0)) := by
  rw [linZero_run_steps bcOracle]
  simp only [List.getD_cons_zero, MixedField.zero_temp]
  norm_num [theta_iv, shippedParamsLin, shippedParams]

/-- Claim C9: a non-aborting run performs exactly `num_time_steps` loop
iterations; `Δt = final_time / num_time_steps`; step `i` carries time
`i·Δt`; each completed step appends its velocity, pressure and temperature
fields, tagged with that time, to three separate streams, and reports
progress `time / final_time`; with `num_time_steps = 2` each stream receives
exactly 2 time-tagged snapshots. -/
theorem C9_time_stepping_driver (p : ScriptParams)
    (f g : PrevRead → MixedField → MixedField) (nrm : MixedField → ℚ)
    (hab : (scriptRun p f g nrm).aborted = false) :
    (scriptRun p f g nrm).steps.length = p.num_time_steps
    ∧ time_step_size p = p.final_time / p.num_time_steps
    ∧ (∀ i < p.num_time_steps,
        ((scriptRun p f g nrm).steps.getD i defaultStepOut).time
          = (i : ℚ) * time_step_size p)
    ∧ (scriptRun p f g nrm).vel_snaps
        = (scriptRun p f g nrm).steps.map (fun so => (so.result.vel, so.time))
    ∧ (scriptRun p f g nrm).press_snaps
        = (scriptRun p f g nrm).steps.map (fun so => (so.result.press, so.time))
    ∧ (scriptRun p f g nrm).temp_snaps
        = (scriptRun p f g nrm).steps.map (fun so => (so.result.temp, so.time))
    ∧ (scriptRun p f g nrm).progressReports
        = (scriptRun p f g nrm).steps.map (fun so => so.time / p.final_time)
    ∧ (scriptRun p f g nrm).vel_snaps.length = p.num_time_steps
    ∧ (scriptRun p f g nrm).press_snaps.length = p.num_time_steps
    ∧ (scriptRun p f g nrm).temp_snaps.length = p.num_time_steps
    ∧ (p.num_time_steps = 2 →
        (scriptRun p f g nrm).vel_snaps.length = 2
        ∧ (scriptRun p f g nrm).press_snaps.length = 2
        ∧ (scriptRun p f g nrm).temp_snaps.length = 2) := by
  rw [scriptRun] at hab ⊢
  have hlen := runFrom_length_of_not_aborted p f g nrm 0 ⟨0, 0, 0⟩ hab
  rw [Nat.sub_zero] at hlen
  have htime := runFrom_times p f g nrm 0 ⟨0, 0, 0⟩
  obtain ⟨hv, hpp, ht, hpr⟩ := runFrom_streams p f g nrm 0 ⟨0, 0, 0⟩
  refine ⟨hlen, rfl, ?_, hv, hpp, ht, hpr, ?_, ?_, ?_, ?_⟩
  · intro i hi
    have h := htime i (by rw [hlen]; exact hi)
    simpa using h
  · rw [hv, List.length_map, hlen]
  · rw [hpp, List.length_map, hlen]
  · rw [ht, List.length_map, hlen]
  · intro h2
    exact ⟨by rw [hv, List.length_map, hlen, h2], by rw [hpp, List.length_map, hlen, h2],
      by rw [ht, List.length_map, hlen, h2]⟩

/-- Witness for C9 at the shipped (direct, `num_time_steps = 2`)
configuration: the run does not abort and each stream gets exactly 2
snapshots. -/
theorem C9_time_stepping_driver_witness :
    (scriptRun shippedParams bcOracle zeroOracle zeroNrm).aborted = false
    ∧ shippedParams.num_time_steps = 2
    ∧ (scriptRun shippedParams bcOracle zeroOracle zeroNrm).vel_snaps.length = 2
    ∧ (scriptRun shippedParams bcOracle zeroOracle zeroNrm).press_snaps.length = 2
    ∧ (scriptRun shippedParams bcOracle zeroOracle zeroNrm).temp_snaps.length = 2 := by
  have hab : (scriptRun shippedParams bcOracle zeroOracle zeroNrm).aborted = false := by
    rw [scriptRun]
    exact runFrom_direct_not_aborted _ _ _ _ rfl 0 _
  have h := C9_time_stepping_driver shippedParams bcOracle zeroOracle zeroNrm hab
  obtain ⟨h1, h2, h3⟩ := h.2.2.2.2.2.2.2.2.2.2 rfl
  exact ⟨hab, rfl, h1, h2, h3⟩

/-- Claim C10: in a non-aborting run with at least one step and a nonzero
final time, the progress values are exactly `n / num_time_steps` for
`n = 0 … num_time_steps − 1`; the first snapshot of each stream is tagged
time `0`; the last is tagged `(num_time_steps − 1)·Δt = final_time − Δt`; the
final progress value is `(num_time_steps − 1)/num_time_steps`; and `1.0` is
never reported. -/
theorem C10_time_tags_and_progress (p : ScriptParams)
    (f g : PrevRead → MixedField → MixedField) (nrm : MixedField → ℚ)
    (hab : (scriptRun p f g nrm).aborted = false)
    (hpos : 0 < p.num_time_steps) (hT : p.final_time ≠ 0) :
    (scriptRun p f g nrm).progressReports
        = (List.range p.num_time_steps).map (fun k : ℕ => (k : ℚ) / p.num_time_steps)
    ∧ ((scriptRun p f g nrm).vel_snaps.getD 0 (fun _ => (0, 0), 0)).2 = 0
    ∧ ((scriptRun p f g nrm).press_snaps.getD 0 (fun _ => 0, 0)).2 = 0
    ∧ ((scriptRun p f g nrm).temp_snaps.getD 0 (fun _ => 0, 0)).2 = 0
    ∧ ((scriptRun p f g nrm).temp_snaps.getD (p.num_time_steps - 1) (fun _ => 0, 0)).2
        = ((p.num_time_steps - 1 : ℕ) : ℚ) * time_step_size p
    ∧ ((p.num_time_steps - 1 : ℕ) : ℚ) * time_step_size p
        = p.final_time - time_step_size p
    ∧ (scriptRun p f g nrm).progressReports.getLast?
        = some (((p.num_time_steps - 1 : ℕ) : ℚ) / p.num_time_steps)
    ∧ (1 : ℚ) ∉ (scriptRun p f g nrm).progressReports := by
  rw [scriptRun] at hab ⊢
  have hlen := runFrom_length_of_not_aborted p f g nrm 0 ⟨0, 0, 0⟩ hab
  rw [Nat.sub_zero] at hlen
  have htime := runFrom_times p f g nrm 0 ⟨0, 0, 0⟩
  obtain ⟨hv, hpp, ht, hpr⟩ := runFrom_streams p f g nrm 0 ⟨0, 0, 0⟩
  have hN' : ((p.num_time_steps : ℕ) : ℚ) ≠ 0 := by exact_mod_cast hpos.ne'
  have hprogeq : (runFrom p f g nrm 0 ⟨0, 0, 0⟩).progressReports
      = (List.range p.num_time_steps).map (fun k : ℕ => (k : ℚ) / p.num_time_steps) := by
    rw [hpr]
    apply List.ext_getElem
    · simp [hlen]
    · intro i h1 h2
      have hi : i < p.num_time_steps := by
        rw [← hlen]
        simpa using h1
    
      simp only [List.getElem_map, List.getElem_range]
      have hti := htime i (by rw [hlen]; exact hi)
      rw [List.getD_eq_getElem _ _ (by rw [hlen]; exact hi)] at hti
      rw [hti]
      simp only [Nat.zero_add, time_step_size]
      field_simp
      ring
  refine ⟨hprogeq, ?_, ?_, ?_, ?_, ?_, ?_, ?_⟩
  · rw [hv, getD_map_of_lt _ _ 0 (by rw [hlen]; exact hpos) _ defaultStepOut]
    have h0 := htime 0 (by rw [hlen]; exact hpos)
    simpa using h0
  · rw [hpp, getD_map_of_lt _ _ 0 (by rw [hlen]; exact hpos) _ defaultStepOut]
    have h0 := htime 0 (by rw [hlen]; exact hpos)
    simpa using h0
  · rw [ht, getD_map_of_lt _ _ 0 (by rw [hlen]; exact hpos) _ defaultStepOut]
    have h0 := htime 0 (by rw [hlen]; exact hpos)
    simpa using h0
  · rw [ht, getD_map_of_lt _ _ (p.num_time_steps - 1) (by rw [hlen]; omega) _ defaultStepOut]
    have hl := htime (p.num_time_steps - 1) (by rw [hlen]; omega)
    rw [hl]
    simp
  · rw [time_step_size, Nat.cast_sub hpos]
    field_simp
    ring
  · rw [hprogeq]
    exact getLast?_map_range _ hpos.ne' _
  · rw [hprogeq]
    intro hmem
    obtain ⟨k, hk, hkeq⟩ := List.mem_map.mp hmem
    have hklt : k < p.num_time_steps := List.mem_range.mp hk
    have : ((k : ℕ) : ℚ) / p.num_time_steps < 1 := by
      rw [div_lt_one (by exact_mod_cast hpos)]
      exact_mod_cast hklt
    exact absurd hkeq (ne_of_lt this)

/-- Witness for C10 at the shipped configuration: the progress values are
`[0/2, 1/2]` and `1.0` is never reported. -/
theorem C10_time_tags_and_progress_witness :
    (scriptRun shippedParams bcOracle zeroOracle zeroNrm).aborted = false
    ∧ 0 < shippedParams.num_time_steps
    ∧ shippedParams.final_time ≠ 0
    ∧ (scriptRun shippedParams bcOracle zeroOracle zeroNrm).progressReports
        = (List.range shippedParams.num_time_steps).map
            (fun k : ℕ => (k : ℚ) / shippedParams.num_time_steps)
    ∧ (1 : ℚ) ∉ (scriptRun shippedParams bcOracle zeroOracle zeroNrm).progressReports := by
  have hab : (scriptRun shippedParams bcOracle zeroOracle zeroNrm).aborted = false := by
    rw [scriptRun]
    exact runFrom_direct_not_aborted _ _ _ _ rfl 0 _
  have h := C10_time_tags_and_progress shippedParams bcOracle zeroOracle zeroNrm hab
    (by decide) (by norm_num [shippedParams])
  exact ⟨hab, by decide, by norm_num [shippedParams], h.1, h.2.2.2.2.2.2.2⟩

end Danaila
